import Mathlib

/-!
Verification of the role-management action layer and the custom user forms
of `saskatoon/member/admin.py`.

The embedding models:
* `Account` — the `AuthUser` rows the admin actions mutate: `email`,
  `password`, the three boolean flags and the many-to-many `groups`
  relation (stored as the list of group names the account belongs to;
  Django's m2m `add` has set semantics, so membership is inserted only
  when absent).
* the global `Group` table as a list of group names, with
  `Group.objects.get_or_create(name=...)` appending only when the name
  is absent.
* each bulk action as a per-account step plus a fold over the selected
  queryset threading the group table.
* a fallible variant of `deactivate_account` in which `u.save()` may
  raise: the Python `for` loop then aborts, leaving the failing and all
  later accounts unprocessed.
* `CustomUserCreationForm.clean_password2` / `save` and
  `CustomUserChangeForm.clean_password` as pure functions on the
  submitted strings (Python string truthiness: a string is truthy iff
  it is non-empty).
-/

structure Account where
  email : String
  password : String
  is_active : Bool
  is_staff : Bool
  is_superuser : Bool
  groups : List String
deriving Repr, DecidableEq

/-- Global group table: the names of the existing `Group` rows, in creation
order. -/
abbrev GroupTable := List String

/-- Model of `Group.objects.get_or_create(name=name)`: look the group up by
name; if absent, create it with that name. Returns the updated table and the
(found or created) group's name. -/
def get_or_create (table : GroupTable) (name : String) : GroupTable × String :=
  if name ∈ table then (table, name) else (table ++ [name], name)

/-- Model of `user.groups.add(group)`: Django m2m add is idempotent, a
membership row is inserted only when absent. -/
def groups_add (u : Account) (g : String) : Account :=
  if g ∈ u.groups then u else { u with groups := u.groups ++ [g] }

/-- Model of `AuthUserAdmin.add_to_group(user, name)` (admin.py lines
163-165). -/
def add_to_group (table : GroupTable) (u : Account) (name : String) :
    GroupTable × Account :=
  let p := get_or_create table name
  (p.1, groups_add u p.2)

/-- Model of `AuthUserAdmin.add_to_staff(user)` (admin.py lines 159-161):
set `is_staff` and save. -/
def add_to_staff (u : Account) : Account :=
  { u with is_staff := true }

/-- Per-account body of the `clear_groups` action (admin.py lines 153-157):
`u.groups.clear()`, `is_superuser = False`, `is_staff = False`, save. -/
def clear_groups_step (u : Account) : Account :=
  { u with groups := [], is_superuser := false, is_staff := false }

/-- Per-account body of the `add_to_admin` action (admin.py lines 168-171):
`add_to_group(u, 'admin')`, `u.is_superuser = True`, `add_to_staff(u)`
(whose save persists both flags). -/
def add_to_admin_step (table : GroupTable) (u : Account) :
    GroupTable × Account :=
  let p := add_to_group table u "admin"
  (p.1, add_to_staff { p.2 with is_superuser := true })

/-- Per-account body of the `add_to_core` action (admin.py lines 174-176). -/
def add_to_core_step (table : GroupTable) (u : Account) :
    GroupTable × Account :=
  let p := add_to_group table u "core"
  (p.1, add_to_staff p.2)

/-- Per-account body of the `add_to_pickleader` action (admin.py lines
179-181). -/
def add_to_pickleader_step (table : GroupTable) (u : Account) :
    GroupTable × Account :=
  let p := add_to_group table u "pickleader"
  (p.1, add_to_staff p.2)

/-- Per-account body of the `add_to_volunteer` action (admin.py lines
184-185): only `add_to_group(u, 'volunteer')`, no flag change. -/
def add_to_volunteer_step (table : GroupTable) (u : Account) :
    GroupTable × Account :=
  add_to_group table u "volunteer"

/-- Per-account body of the `add_to_owner` action (admin.py lines
188-189). -/
def add_to_owner_step (table : GroupTable) (u : Account) :
    GroupTable × Account :=
  add_to_group table u "owner"

/-- Per-account body of the `deactivate_account` action (admin.py lines
192-195): if the account is not a superuser, set `is_active = False` and
save; otherwise do nothing. -/
def deactivate_step (u : Account) : Account :=
  if u.is_superuser then u else { u with is_active := false }

/-- Sequential fold of a per-account step over the selected queryset,
threading the global group table, as the Python `for u in queryset` loops
do. -/
def runAction (step : GroupTable → Account → GroupTable × Account) :
    GroupTable → List Account → GroupTable × List Account
  | table, [] => (table, [])
  | table, u :: rest =>
    let p := step table u
    let q := runAction step p.1 rest
    (q.1, p.2 :: q.2)

/-- The `clear_groups` bulk action over a queryset (admin.py lines
152-157). -/
def clear_groups (qs : List Account) : List Account :=
  qs.map clear_groups_step

/-- The `add_to_admin` bulk action over a queryset (admin.py lines
167-171). -/
def add_to_admin (table : GroupTable) (qs : List Account) :
    GroupTable × List Account :=
  runAction add_to_admin_step table qs

/-- The `add_to_core` bulk action over a queryset (admin.py lines
173-176). -/
def add_to_core (table : GroupTable) (qs : List Account) :
    GroupTable × List Account :=
  runAction add_to_core_step table qs

/-- The `add_to_volunteer` bulk action over a queryset (admin.py lines
183-185). -/
def add_to_volunteer (table : GroupTable) (qs : List Account) :
    GroupTable × List Account :=
  runAction add_to_volunteer_step table qs

/-- The `add_to_pickleader` bulk action over a queryset (admin.py lines
178-181). -/
def add_to_pickleader (table : GroupTable) (qs : List Account) :
    GroupTable × List Account :=
  runAction add_to_pickleader_step table qs

/-- The `add_to_owner` bulk action over a queryset (admin.py lines
187-189). -/
def add_to_owner (table : GroupTable) (qs : List Account) :
    GroupTable × List Account :=
  runAction add_to_owner_step table qs

/-- The `deactivate_account` bulk action over a queryset (admin.py lines
191-195). -/
def deactivate_account (qs : List Account) : List Account :=
  qs.map deactivate_step

/-- The `deactivate_account` loop when `u.save()` may raise a persistence
error: `fails u = true` means saving `u` raises. The exception propagates
out of the `for` loop, so the failing account keeps its stored state and no
later account is visited. The boolean result is `true` iff the loop ran to
completion. -/
def deactivate_account_f (fails : Account → Bool) :
    List Account → List Account × Bool
  | [] => ([], true)
  | u :: rest =>
    if u.is_superuser then
      let q := deactivate_account_f fails rest
      (u :: q.1, q.2)
    else if fails u then
      (u :: rest, false)
    else
      let q := deactivate_account_f fails rest
      ({ u with is_active := false } :: q.1, q.2)

/-- Generic model of one bulk-action loop body split at its `u.save()`
call: `pre` are the writes the body commits to the database before any
save (m2m `clear`/`add` and `get_or_create` execute immediately), `post`
are the in-memory attribute assignments that only `u.save()` persists, and
`saves u` tells whether the body calls `u.save()` on this item at all. The
composed per-item step is what the loop does to an item when its save
succeeds. -/
def stepOf (pre : GroupTable → Account → GroupTable × Account)
    (post : Account → Account) (saves : Account → Bool) :
    GroupTable → Account → GroupTable × Account :=
  fun table u =>
    let p := pre table u
    (p.1, if saves u then post p.2 else p.2)

/-- Generic bulk loop when `u.save()` may raise (`fails u = true`): the
`pre` writes of the current item are already committed when the save
raises, the exception propagates out of the `for` loop, and no later item
is visited. The boolean result is `true` iff the loop ran to completion. -/
def runActionF (pre : GroupTable → Account → GroupTable × Account)
    (post : Account → Account) (saves fails : Account → Bool) :
    GroupTable → List Account → (GroupTable × List Account) × Bool
  | table, [] => ((table, []), true)
  | table, u :: rest =>
    let p := pre table u
    if saves u then
      if fails u then
        ((p.1, p.2 :: rest), false)
      else
        let q := runActionF pre post saves fails p.1 rest
        ((q.1.1, post p.2 :: q.1.2), q.2)
    else
      let q := runActionF pre post saves fails p.1 rest
      ((q.1.1, p.2 :: q.1.2), q.2)

/-- Save guard of the loops that save every item. -/
def allSaves : Account → Bool := fun _ => true

/-- Save guard of the loops that never call save (`add_to_volunteer`,
`add_to_owner`: only the m2m add). -/
def noSaves : Account → Bool := fun _ => false

/-- Writes of one `clear_groups` iteration committed before `u.save()`:
`u.groups.clear()` hits the database immediately. -/
def clear_groups_pre (table : GroupTable) (u : Account) :
    GroupTable × Account :=
  (table, { u with groups := [] })

/-- Writes of one `clear_groups` iteration persisted by `u.save()`. -/
def clear_groups_post (u : Account) : Account :=
  { u with is_superuser := false, is_staff := false }

/-- Writes of one `add_to_admin` iteration committed before the save
inside `add_to_staff`. -/
def add_to_admin_pre (table : GroupTable) (u : Account) :
    GroupTable × Account :=
  add_to_group table u "admin"

/-- Writes of one `add_to_admin` iteration persisted by the save inside
`add_to_staff`. -/
def add_to_admin_post (u : Account) : Account :=
  add_to_staff { u with is_superuser := true }

/-- Writes of one `add_to_core` iteration committed before the save inside
`add_to_staff`. -/
def add_to_core_pre (table : GroupTable) (u : Account) :
    GroupTable × Account :=
  add_to_group table u "core"

/-- Writes of one `add_to_pickleader` iteration committed before the save
inside `add_to_staff`. -/
def add_to_pickleader_pre (table : GroupTable) (u : Account) :
    GroupTable × Account :=
  add_to_group table u "pickleader"

/-- The `deactivate_account` body performs no writes before its save. -/
def deactivate_pre (table : GroupTable) (u : Account) :
    GroupTable × Account :=
  (table, u)

/-- Write of one `deactivate_account` iteration persisted by `u.save()`. -/
def deactivate_post (u : Account) : Account :=
  { u with is_active := false }

/-- The `deactivate_account` body calls `u.save()` only on
non-superusers. -/
def deactivate_saves (u : Account) : Bool :=
  !u.is_superuser

/-- Model of `CustomUserCreationForm.clean_password2` (admin.py lines
32-39): raise `ValidationError("Passwords do not match.")` only when both
submitted password strings are truthy (non-empty) and differ; otherwise
return `password2`. -/
def clean_password2 (password1 password2 : String) : Except String String :=
  if password1 ≠ "" ∧ password2 ≠ "" ∧ password1 ≠ password2 then
    Except.error "Passwords do not match."
  else
    Except.ok password2

/-- Outcome of submitting the creation form: when any clean step raises a
validation error the form is invalid and nothing is persisted (`none`);
otherwise `CustomUserCreationForm.save` (admin.py lines 41-47) persists the
user with `set_password(self.cleaned_data["password1"])`, returned here as
the stored raw password. -/
def creation_form_result (password1 password2 : String) : Option String :=
  match clean_password2 password1 password2 with
  | Except.error _ => none
  | Except.ok _ => some password1

/-- Model of `CustomUserChangeForm.clean_password` (admin.py lines 63-67):
regardless of what the user submits, return the form's initial (stored)
password value. -/
def clean_password (stored _submitted : String) : String :=
  stored

section RunActionLemmas

theorem runAction_snd_length
    (step : GroupTable → Account → GroupTable × Account)
    (table : GroupTable) (qs : List Account) :
    (runAction step table qs).2.length = qs.length := by
  induction qs generalizing table with
  | nil => rfl
  | cons u rest ih => simp [runAction, ih]

theorem runAction_mem
    (step : GroupTable → Account → GroupTable × Account)
    (table : GroupTable) (qs : List Account) (v : Account)
    (hv : v ∈ (runAction step table qs).2) :
    ∃ t u, u ∈ qs ∧ v = (step t u).2 := by
  induction qs generalizing table with
  | nil => simp [runAction] at hv
  | cons u rest ih =>
    simp only [runAction, List.mem_cons] at hv
    rcases hv with h | h
    · exact ⟨table, u, List.mem_cons_self u rest, h⟩
    · obtain ⟨t, w, hw, hval⟩ := ih _ h
      exact ⟨t, w, List.mem_cons_of_mem u hw, hval⟩

end RunActionLemmas

section ConcreteAccounts

/-- Concrete superuser account used in witnesses. -/
def uSuper : Account :=
  { email := "root@example.org", password := "h1", is_active := true,
    is_staff := true, is_superuser := true, groups := ["admin"] }

/-- Concrete ordinary active account used in witnesses. -/
def uPlain : Account :=
  { email := "plain@example.org", password := "h2", is_active := true,
    is_staff := false, is_superuser := false, groups := [] }

/-- Second concrete ordinary active account used in counterexamples. -/
def uOther : Account :=
  { email := "other@example.org", password := "h3", is_active := true,
    is_staff := false, is_superuser := false, groups := ["owner"] }

/-- Failure oracle making the save of `uPlain` (and only it) raise. -/
def failsPlain (u : Account) : Bool :=
  u.email == "plain@example.org"

end ConcreteAccounts

/-- Deactivated copy of `uPlain`, used in the C1 witness. -/
def uPlainOff : Account :=
  { uPlain with
      is_active := false }

/-- Cleared copy of `uSuper`, used in the C2 witness. -/
def uSuperCleared : Account :=
  { uSuper with
      groups := [], is_superuser := false, is_staff := false }

/-- C1: for every account of the selected queryset, `deactivate_account`
leaves `is_active` unchanged when the account is a superuser and sets it to
`false` otherwise. -/
theorem deactivate_respects_superuser_protection
    (qs : List Account) (i : Nat) (u u' : Account)
    (hu : qs[i]? = some u)
    (hu' : (deactivate_account qs)[i]? = some u') :
    u'.is_active = (if u.is_superuser then u.is_active else false) := by
  rw [deactivate_account, List.getElem?_map, hu] at hu'
  cases hu'
  by_cases h : u.is_superuser <;> simp [deactivate_step, h]

theorem deactivate_respects_superuser_protection_witness :
    ([uSuper, uPlain] : List Account)[1]? = some uPlain ∧
    (deactivate_account [uSuper, uPlain])[1]? = some uPlainOff ∧
    uPlainOff.is_active =
      (if uPlain.is_superuser then uPlain.is_active else false) :=
  ⟨rfl, rfl,
    deactivate_respects_superuser_protection [uSuper, uPlain] 1 uPlain
      uPlainOff rfl rfl⟩

/-- C2: every account of the result of `clear_groups` belongs to no group
and has both `is_superuser` and `is_staff` false. -/
theorem clear_groups_clears_roles
    (qs : List Account) (u' : Account) (hu' : u' ∈ clear_groups qs) :
    u'.groups = [] ∧ u'.is_superuser = false ∧ u'.is_staff = false := by
  simp only [clear_groups, List.mem_map] at hu'
  obtain ⟨u, _, rfl⟩ := hu'
  simp [clear_groups_step]

theorem clear_groups_clears_roles_witness :
    uSuperCleared ∈ clear_groups [uSuper, uOther] ∧
    uSuperCleared.groups = [] ∧
    uSuperCleared.is_superuser = false ∧
    uSuperCleared.is_staff = false := by
  refine ⟨by simp [clear_groups, clear_groups_step, uSuperCleared], ?_⟩
  exact clear_groups_clears_roles [uSuper, uOther] _
    (by simp [clear_groups, clear_groups_step, uSuperCleared])

section StepLemmas

theorem mem_groups_add (u : Account) (g : String) :
    g ∈ (groups_add u g).groups := by
  by_cases h : g ∈ u.groups <;> simp [groups_add, h]

theorem groups_add_of_mem (u : Account) (g : String) (h : g ∈ u.groups) :
    groups_add u g = u := by
  simp [groups_add, h]

theorem groups_add_is_staff (u : Account) (g : String) :
    (groups_add u g).is_staff = u.is_staff := by
  by_cases h : g ∈ u.groups <;> simp [groups_add, h]

theorem mem_get_or_create (table : GroupTable) (name : String) :
    name ∈ (get_or_create table name).1 := by
  by_cases h : name ∈ table <;> simp [get_or_create, h]

theorem get_or_create_of_mem (table : GroupTable) (name : String)
    (h : name ∈ table) : get_or_create table name = (table, name) := by
  simp [get_or_create, h]

theorem get_or_create_snd (table : GroupTable) (name : String) :
    (get_or_create table name).2 = name := by
  by_cases h : name ∈ table <;> simp [get_or_create, h]

theorem add_to_staff_of_staff (u : Account) (h : u.is_staff = true) :
    add_to_staff u = u := by
  cases u
  simp only [add_to_staff]
  simp_all

theorem add_to_staff_add_to_staff (u : Account) :
    add_to_staff (add_to_staff u) = add_to_staff u := rfl

theorem count_get_or_create (table : GroupTable) (name : String)
    (h : table.count name ≤ 1) :
    ((get_or_create table name).1).count name ≤ 1 := by
  by_cases hm : name ∈ table
  · simpa [get_or_create, hm] using h
  · have h0 : table.count name = 0 := List.count_eq_zero.mpr hm
    simp [get_or_create, hm, List.count_append, h0]

theorem count_groups_add (u : Account) (g : String)
    (h : u.groups.count g ≤ 1) :
    (groups_add u g).groups.count g ≤ 1 := by
  by_cases hm : g ∈ u.groups
  · simpa [groups_add, hm] using h
  · have h0 : u.groups.count g = 0 := List.count_eq_zero.mpr hm
    simp [groups_add, hm, List.count_append, h0]

end StepLemmas

/-- Account `uPlain` after the `add_to_admin` action, used in the C3
witness. -/
def uPlainAdmin : Account :=
  { uPlain with
      groups := ["admin"], is_superuser := true, is_staff := true }

/-- C3: every account of the result of `add_to_admin` belongs to the group
named "admin" and has both `is_superuser` and `is_staff` true (the model
state is the persisted state: `add_to_staff` saves both flags). -/
theorem add_to_admin_grants_admin
    (table : GroupTable) (qs : List Account) (u' : Account)
    (hu' : u' ∈ (add_to_admin table qs).2) :
    "admin" ∈ u'.groups ∧ u'.is_superuser = true ∧ u'.is_staff = true := by
  obtain ⟨t, u, _, rfl⟩ := runAction_mem add_to_admin_step table qs u' hu'
  refine ⟨?_, rfl, rfl⟩
  simpa [add_to_admin_step, add_to_group, add_to_staff, get_or_create_snd]
    using mem_groups_add u (get_or_create t "admin").2

theorem add_to_admin_grants_admin_witness :
    uPlainAdmin ∈ (add_to_admin [] [uPlain]).2 ∧
    "admin" ∈ uPlainAdmin.groups ∧
    uPlainAdmin.is_superuser = true ∧ uPlainAdmin.is_staff = true :=
  ⟨by decide, add_to_admin_grants_admin [] [uPlain] uPlainAdmin (by decide)⟩

/-- C5: `add_to_core` applied twice to the same account is the same as
applying it once, and (starting from a duplicate-free state) neither the
"core" group row nor the membership is ever duplicated — get-or-create and
m2m add only insert what is absent. -/
theorem add_to_core_step_idempotent (table : GroupTable) (u : Account)
    (ht : table.count "core" ≤ 1) (hu : u.groups.count "core" ≤ 1) :
    add_to_core_step (add_to_core_step table u).1 (add_to_core_step table u).2
        = add_to_core_step table u ∧
    ((add_to_core_step table u).1).count "core" ≤ 1 ∧
    ((add_to_core_step table u).2).groups.count "core" ≤ 1 := by
  have htab : (add_to_core_step table u).1 = (get_or_create table "core").1 :=
    rfl
  have hacc : (add_to_core_step table u).2
      = add_to_staff (groups_add u (get_or_create table "core").2) := rfl
  have hmem_tab : "core" ∈ (add_to_core_step table u).1 := by
    rw [htab]; exact mem_get_or_create table "core"
  have hmem_acc : "core" ∈ ((add_to_core_step table u).2).groups := by
    rw [hacc, get_or_create_snd]
    simpa [add_to_staff] using mem_groups_add u "core"
  have hstaff : ((add_to_core_step table u).2).is_staff = true := by
    rw [hacc]; rfl
  refine ⟨?_, ?_, ?_⟩
  · unfold add_to_core_step add_to_group
    simp only [get_or_create_snd]
    have hm1 : "core" ∈ (get_or_create table "core").1 :=
      mem_get_or_create table "core"
    have hm2 : "core" ∈ (add_to_staff (groups_add u "core")).groups := by
      simpa [add_to_staff] using mem_groups_add u "core"
    rw [get_or_create_of_mem _ _ hm1]
    simp only [groups_add_of_mem _ _ hm2, add_to_staff_add_to_staff]
  · rw [htab]; exact count_get_or_create table "core" ht
  · rw [hacc, get_or_create_snd]
    simpa [add_to_staff] using count_groups_add u "core" hu

theorem add_to_core_step_idempotent_witness :
    (([] : GroupTable).count "core" ≤ 1 ∧ uPlain.groups.count "core" ≤ 1) ∧
    (add_to_core_step (add_to_core_step [] uPlain).1
        (add_to_core_step [] uPlain).2 = add_to_core_step [] uPlain ∧
      ((add_to_core_step [] uPlain).1).count "core" ≤ 1 ∧
      ((add_to_core_step [] uPlain).2).groups.count "core" ≤ 1) :=
  ⟨by decide, add_to_core_step_idempotent [] uPlain (by decide) (by decide)⟩

/-- Account `uPlain` after the `add_to_volunteer` action, used in the C6
scenario. -/
def uPlainVol : Account :=
  { uPlain with
      groups := ["volunteer"] }

/-- C6: `add_to_volunteer` puts every account into the group named
"volunteer" and never touches `is_staff`; moreover in the concrete scenario
(account `uPlain`: no superuser, no staff, no groups) the account ends up in
group "volunteer" with `is_staff = false`, and a subsequent
`deactivate_account` sets `is_active = false`. -/
theorem add_to_volunteer_keeps_staff :
    (∀ (table : GroupTable) (u : Account),
        "volunteer" ∈ ((add_to_volunteer_step table u).2).groups ∧
        ((add_to_volunteer_step table u).2).is_staff = u.is_staff) ∧
    (((add_to_volunteer [] [uPlain]).2)[0]? = some uPlainVol ∧
      "volunteer" ∈ uPlainVol.groups ∧
      uPlainVol.is_staff = false ∧
      (deactivate_account [uPlainVol])[0]?
        = some { uPlainVol with is_active := false } ∧
      ({ uPlainVol with is_active := false } : Account).is_active = false) := by
  refine ⟨fun table u => ⟨?_, ?_⟩, by decide, by decide, rfl, by decide, rfl⟩
  · simpa [add_to_volunteer_step, add_to_group, get_or_create_snd]
      using mem_groups_add u "volunteer"
  · simp [add_to_volunteer_step, add_to_group, get_or_create_snd,
      groups_add_is_staff]

/-- C8: `deactivate_account` only ever writes `is_active`: the groups, the
flags `is_staff` and `is_superuser`, the email and the password of every
account are untouched, and on a superuser no save happens at all, so the
whole record is unchanged. -/
theorem deactivate_step_frame (u : Account) :
    (deactivate_step u).groups = u.groups ∧
    (deactivate_step u).is_staff = u.is_staff ∧
    (deactivate_step u).is_superuser = u.is_superuser ∧
    (deactivate_step u).email = u.email ∧
    (deactivate_step u).password = u.password ∧
    (u.is_superuser = true → deactivate_step u = u) := by
  by_cases h : u.is_superuser <;>
    simp [deactivate_step, h]

theorem deactivate_step_frame_witness :
    (deactivate_step uSuper).groups = uSuper.groups ∧
    (deactivate_step uSuper).is_staff = uSuper.is_staff ∧
    (deactivate_step uSuper).is_superuser = uSuper.is_superuser ∧
    (deactivate_step uSuper).email = uSuper.email ∧
    (deactivate_step uSuper).password = uSuper.password ∧
    (uSuper.is_superuser = true → deactivate_step uSuper = uSuper) :=
  deactivate_step_frame uSuper

/-- C4 counterexample: in the queryset `[uPlain, uOther]`, saving `uPlain`
raises a persistence error. `uOther` is an active non-superuser whose own
save would succeed, yet the loop returns it unchanged (`is_active` still
true): the failure on the first account prevents the processing of the
remaining one, so there is no per-item isolation. -/
theorem deactivate_failure_not_isolated :
    failsPlain uPlain = true ∧ failsPlain uOther = false ∧
    uOther.is_superuser = false ∧ uOther.is_active = true ∧
    (deactivate_account_f failsPlain [uPlain, uOther]).2 = false ∧
    ((deactivate_account_f failsPlain [uPlain, uOther]).1)[1]?
      = some uOther := by
  decide

section GenericLoopLemmas

theorem runAction_of_pure (step : GroupTable → Account → GroupTable × Account)
    (f : Account → Account) (hstep : ∀ t u, step t u = (t, f u)) :
    ∀ (table : GroupTable) (qs : List Account),
      runAction step table qs = (table, qs.map f) := by
  intro table qs
  induction qs generalizing table with
  | nil => simp [runAction]
  | cons u rest ih => simp [runAction, hstep, ih]

theorem runActionF_noSaves (pre : GroupTable → Account → GroupTable × Account)
    (post : Account → Account) (fails : Account → Bool)
    (table : GroupTable) (qs : List Account) :
    runActionF pre post noSaves fails table qs
      = (runAction pre table qs, true) := by
  induction qs generalizing table with
  | nil => simp [runActionF, runAction]
  | cons u rest ih => simp [runActionF, runAction, noSaves, ih]

theorem stepOf_clear_groups (table : GroupTable) (u : Account) :
    stepOf clear_groups_pre clear_groups_post allSaves table u
      = (table, clear_groups_step u) := rfl

theorem stepOf_add_to_admin :
    runAction (stepOf add_to_admin_pre add_to_admin_post allSaves)
      = runAction add_to_admin_step := rfl

theorem stepOf_add_to_core :
    runAction (stepOf add_to_core_pre add_to_staff allSaves)
      = runAction add_to_core_step := rfl

theorem stepOf_add_to_pickleader :
    runAction (stepOf add_to_pickleader_pre add_to_staff allSaves)
      = runAction add_to_pickleader_step := rfl

theorem stepOf_deactivate (table : GroupTable) (u : Account) :
    stepOf deactivate_pre deactivate_post deactivate_saves table u
      = (table, deactivate_step u) := by
  cases hs : u.is_superuser <;>
    simp [stepOf, deactivate_pre, deactivate_post, deactivate_saves,
      deactivate_step, hs]

theorem deactivate_account_f_eq (fails : Account → Bool)
    (table : GroupTable) (qs : List Account) :
    deactivate_account_f fails qs
      = ((runActionF deactivate_pre deactivate_post deactivate_saves fails
            table qs).1.2,
         (runActionF deactivate_pre deactivate_post deactivate_saves fails
            table qs).2) := by
  induction qs generalizing table with
  | nil => simp [deactivate_account_f, runActionF]
  | cons u rest ih =>
    cases hs : u.is_superuser with
    | true =>
      simp [deactivate_account_f, runActionF, deactivate_saves,
        deactivate_pre, hs, ih (deactivate_pre table u).1]
    | false =>
      cases hf : fails u with
      | true =>
        simp [deactivate_account_f, runActionF, deactivate_saves,
          deactivate_pre, hs, hf]
      | false =>
        simp [deactivate_account_f, runActionF, deactivate_saves,
          deactivate_pre, deactivate_post, hs, hf,
          ih (deactivate_pre table u).1]

theorem runActionF_abort (pre : GroupTable → Account → GroupTable × Account)
    (post : Account → Account) (saves fails : Account → Bool)
    (table : GroupTable) (qs : List Account)
    (h : (runActionF pre post saves fails table qs).2 = false) :
    ∃ i, i < qs.length ∧ ∃ u, qs[i]? = some u ∧ saves u = true ∧
      fails u = true ∧
      (runActionF pre post saves fails table qs).1.2
        = (runAction (stepOf pre post saves) table (qs.take i)).2
            ++ (pre (runAction (stepOf pre post saves) table (qs.take i)).1
                  u).2
              :: qs.drop (i + 1) ∧
      (runActionF pre post saves fails table qs).1.1
        = (pre (runAction (stepOf pre post saves) table (qs.take i)).1 u).1 := by
  induction qs generalizing table with
  | nil => simp [runActionF] at h
  | cons u rest ih =>
    cases hsv : saves u with
    | false =>
      rw [runActionF] at h
      simp only [hsv, Bool.false_eq_true, if_false] at h
      obtain ⟨i, hi, w, hw, hws, hwf, hlist, htab⟩ := ih (pre table u).1 h
      refine ⟨i + 1, by simpa using hi, w, by simpa using hw, hws, hwf,
        ?_, ?_⟩
      · rw [runActionF, List.take_succ_cons, List.drop_succ_cons, runAction]
        simp only [hsv, Bool.false_eq_true, if_false, stepOf]
        rw [hlist]
        simp
      · rw [runActionF, List.take_succ_cons, runAction]
        simp only [hsv, Bool.false_eq_true, if_false, stepOf]
        rw [htab]
    | true =>
      cases hf : fails u with
      | true =>
        refine ⟨0, by simp, u, by simp, hsv, hf, ?_, ?_⟩
        · rw [runActionF]
          simp [hsv, hf, runAction]
        · rw [runActionF]
          simp [hsv, hf, runAction]
      | false =>
        rw [runActionF] at h
        simp only [hsv, hf, Bool.false_eq_true, if_false, if_true] at h
        obtain ⟨i, hi, w, hw, hws, hwf, hlist, htab⟩ := ih (pre table u).1 h
        refine ⟨i + 1, by simpa using hi, w, by simpa using hw, hws, hwf,
          ?_, ?_⟩
        · rw [runActionF, List.take_succ_cons, List.drop_succ_cons,
            runAction]
          simp only [hsv, hf, Bool.false_eq_true, if_false, if_true, stepOf]
          rw [hlist]
          simp
        · rw [runActionF, List.take_succ_cons, runAction]
          simp only [hsv, hf, Bool.false_eq_true, if_false, if_true, stepOf]
          rw [htab]

end GenericLoopLemmas

/-- C4 (amended): every bulk action iterates its queryset in a plain loop
with no exception handling, so a persistence failure while saving one
account aborts the batch: the accounts before the failing one are fully
processed and keep their committed mutations, no account after it is
processed, and the failing account keeps exactly the writes committed
before the failed save (none for `deactivate_account`; the m2m group
writes for the group-mutating actions). The first conjunct proves this for
the generic loop `runActionF pre post saves fails` (per-item: `pre` writes
committed before the save, `post` writes persisted by the save, `saves`
the save guard, `fails` the failure oracle); the remaining conjuncts
identify each of the seven bulk actions of admin.py with its instance —
the composed per-item step of `(pre, post, saves)` recovers the infallible
action, the save-free actions (`add_to_volunteer`, `add_to_owner`) always
complete, and the fallible deactivate loop `deactivate_account_f` is the
deactivate instance. -/
theorem bulk_save_failure_aborts_batch :
    (∀ (pre : GroupTable → Account → GroupTable × Account)
        (post : Account → Account) (saves fails : Account → Bool)
        (table : GroupTable) (qs : List Account),
      (runActionF pre post saves fails table qs).2 = false →
      ∃ i, i < qs.length ∧ ∃ u, qs[i]? = some u ∧ saves u = true ∧
        fails u = true ∧
        (runActionF pre post saves fails table qs).1.2
          = (runAction (stepOf pre post saves) table (qs.take i)).2
              ++ (pre (runAction (stepOf pre post saves) table
                        (qs.take i)).1 u).2
                :: qs.drop (i + 1) ∧
        (runActionF pre post saves fails table qs).1.1
          = (pre (runAction (stepOf pre post saves) table (qs.take i)).1
              u).1) ∧
    (∀ (table : GroupTable) (qs : List Account),
      (runAction (stepOf clear_groups_pre clear_groups_post allSaves)
          table qs).2 = clear_groups qs) ∧
    (∀ (table : GroupTable) (qs : List Account),
      runAction (stepOf add_to_admin_pre add_to_admin_post allSaves)
          table qs = add_to_admin table qs) ∧
    (∀ (table : GroupTable) (qs : List Account),
      runAction (stepOf add_to_core_pre add_to_staff allSaves) table qs
        = add_to_core table qs) ∧
    (∀ (table : GroupTable) (qs : List Account),
      runAction (stepOf add_to_pickleader_pre add_to_staff allSaves)
          table qs = add_to_pickleader table qs) ∧
    (∀ (fails : Account → Bool) (table : GroupTable) (qs : List Account),
      runActionF add_to_volunteer_step id noSaves fails table qs
        = (add_to_volunteer table qs, true)) ∧
    (∀ (fails : Account → Bool) (table : GroupTable) (qs : List Account),
      runActionF add_to_owner_step id noSaves fails table qs
        = (add_to_owner table qs, true)) ∧
    (∀ (fails : Account → Bool) (table : GroupTable) (qs : List Account),
      deactivate_account_f fails qs
        = ((runActionF deactivate_pre deactivate_post deactivate_saves
              fails table qs).1.2,
           (runActionF deactivate_pre deactivate_post deactivate_saves
              fails table qs).2)) ∧
    (∀ (table : GroupTable) (qs : List Account),
      (runAction (stepOf deactivate_pre deactivate_post deactivate_saves)
          table qs).2 = deactivate_account qs) := by
  refine ⟨runActionF_abort, ?_, ?_, ?_, ?_, ?_, ?_, deactivate_account_f_eq,
    ?_⟩
  · intro table qs
    rw [runAction_of_pure _ _ stepOf_clear_groups]
    rfl
  · intro table qs
    rw [stepOf_add_to_admin]
    rfl
  · intro table qs
    rw [stepOf_add_to_core]
    rfl
  · intro table qs
    rw [stepOf_add_to_pickleader]
    rfl
  · intro fails table qs
    rw [runActionF_noSaves]
    rfl
  · intro fails table qs
    rw [runActionF_noSaves]
    rfl
  · intro table qs
    rw [runAction_of_pure _ _ stepOf_deactivate]
    rfl

theorem bulk_save_failure_aborts_batch_witness :
    ∃ i, i < ([uPlain, uOther] : List Account).length ∧ ∃ u,
      ([uPlain, uOther] : List Account)[i]? = some u ∧
      deactivate_saves u = true ∧ failsPlain u = true ∧
      (runActionF deactivate_pre deactivate_post deactivate_saves failsPlain
          [] [uPlain, uOther]).1.2
        = (runAction (stepOf deactivate_pre deactivate_post deactivate_saves)
              [] (([uPlain, uOther] : List Account).take i)).2
            ++ (deactivate_pre
                  (runAction
                    (stepOf deactivate_pre deactivate_post deactivate_saves)
                    [] (([uPlain, uOther] : List Account).take i)).1 u).2
              :: ([uPlain, uOther] : List Account).drop (i + 1) ∧
      (runActionF deactivate_pre deactivate_post deactivate_saves failsPlain
          [] [uPlain, uOther]).1.1
        = (deactivate_pre
              (runAction
                (stepOf deactivate_pre deactivate_post deactivate_saves)
                [] (([uPlain, uOther] : List Account).take i)).1 u).1 :=
  bulk_save_failure_aborts_batch.1 deactivate_pre deactivate_post
    deactivate_saves failsPlain [] [uPlain, uOther] (by decide)

/-- C7 counterexample: `password1 = "secret"` and `password2 = ""` do not
match, yet `clean_password2` raises no validation error and the form saves
the account (with password "secret"), because an empty field is falsy and
skips the comparison. -/
theorem clean_password2_mismatch_accepted :
    ("secret" : String) ≠ "" ∧
    clean_password2 "secret" "" = Except.ok "" ∧
    creation_form_result "secret" "" = some "secret" :=
  ⟨by decide, rfl, rfl⟩

/-- C7 (amended): when both submitted password fields are non-empty and do
not match, the creation form raises a validation error and the input is not
persisted. -/
theorem clean_password2_mismatch_rejected (p1 p2 : String)
    (h1 : p1 ≠ "") (h2 : p2 ≠ "") (hne : p1 ≠ p2) :
    clean_password2 p1 p2 = Except.error "Passwords do not match." ∧
    creation_form_result p1 p2 = none := by
  have he : clean_password2 p1 p2 = Except.error "Passwords do not match." :=
    by rw [clean_password2, if_pos ⟨h1, h2, hne⟩]
  exact ⟨he, by rw [creation_form_result, he]⟩

theorem clean_password2_mismatch_rejected_witness :
    (("a" : String) ≠ "" ∧ ("b" : String) ≠ "" ∧ ("a" : String) ≠ "b") ∧
    (clean_password2 "a" "b" = Except.error "Passwords do not match." ∧
      creation_form_result "a" "b" = none) :=
  ⟨by decide,
    clean_password2_mismatch_rejected "a" "b" (by decide) (by decide)
      (by decide)⟩

/-- C9: the change form's cleaned password is the stored initial value
whatever the user submits — two submissions differing only in the password
field clean to the same value, so the change form can never alter the
stored password hash. -/
theorem clean_password_ignores_submitted (stored s1 s2 : String) :
    clean_password stored s1 = clean_password stored s2 ∧
    clean_password stored s1 = stored :=
  ⟨rfl, rfl⟩

/-- C10: `clean_password2` raises a validation error exactly when both
password fields are non-empty and unequal; whenever either field is empty
it accepts and returns `password2`, so a submission with one field filled
and the other empty passes the confirmation check. -/
theorem clean_password2_error_iff (p1 p2 : String) :
    ((∃ e, clean_password2 p1 p2 = Except.error e) ↔
      (p1 ≠ "" ∧ p2 ≠ "" ∧ p1 ≠ p2)) ∧
    (p1 = "" ∨ p2 = "" → clean_password2 p1 p2 = Except.ok p2) := by
  constructor
  · constructor
    · rintro ⟨e, he⟩
      by_contra hcon
      rw [clean_password2, if_neg hcon] at he
      cases he
    · intro h
      exact ⟨"Passwords do not match.", by rw [clean_password2, if_pos h]⟩
  · intro h
    rw [clean_password2, if_neg]
    rintro ⟨h1, h2, -⟩
    rcases h with h | h
    · exact h1 h
    · exact h2 h

theorem clean_password2_error_iff_witness :
    ((∃ e, clean_password2 "x" "" = Except.error e) ↔
      (("x" : String) ≠ "" ∧ ("" : String) ≠ "" ∧ ("x" : String) ≠ "")) ∧
    (("x" : String) = "" ∨ ("" : String) = "" →
      clean_password2 "x" "" = Except.ok "") :=
  clean_password2_error_iff "x" ""
